import Mathlib

/-!
Verification of the core locator/editor of the `senior` repository.

The repository locates a named function or method inside a source file
(Rust, Go, JavaScript or TypeScript), via a tree-sitter concrete syntax
tree, and splices replacement text over the located node's byte span.

The embedding below mirrors the source:
- `src/helpers/tree_sitter.rs`: `find_all_of_kind`,
  `find_first_of_kind_with_field_value`, `node_value`;
- `src/supported_languages/{rust,go,javascript,typescript}.rs`: the four
  `find_correct_node` implementations;
- `src/main.rs`: `Optimizer::build` and the render step.

A tree-sitter node is modelled as a kind tag, the field label under which
it sits in its parent (tree-sitter fields are edge labels; storing them on
the child is isomorphic), a numeric identity (`Node::id`), a span, and the
ordered list of all children (named and anonymous alike, which is what
`Node::child(i)` indexes in tree-sitter). Spans are in character units;
all sources considered here are ASCII, where characters and bytes agree.
A Rust `.unwrap()` on a missing field or child is a panic; panics are
modelled as the explicit outcome `aborted` (for helpers returning through
`Option`, as the outer `none`).
-/

mutual
inductive TSNode : Type where
  | mk (kind : String) (fieldLabel : Option String) (nid : Nat) (sp : Nat × Nat)
       (children : TSForest)

inductive TSForest : Type where
  | nil
  | cons (hd : TSNode) (tl : TSForest)
end

mutual
def TSNode.decEq : (a b : TSNode) → Decidable (a = b)
  | .mk k f i s cs, .mk k' f' i' s' cs' =>
    match decEq k k', decEq f f', decEq i i', decEq s s', TSForest.decEq cs cs' with
    | isTrue h1, isTrue h2, isTrue h3, isTrue h4, isTrue h5 =>
        isTrue (by rw [h1, h2, h3, h4, h5])
    | isFalse h, _, _, _, _ => isFalse (by simp only [TSNode.mk.injEq]; tauto)
    | _, isFalse h, _, _, _ => isFalse (by simp only [TSNode.mk.injEq]; tauto)
    | _, _, isFalse h, _, _ => isFalse (by simp only [TSNode.mk.injEq]; tauto)
    | _, _, _, isFalse h, _ => isFalse (by simp only [TSNode.mk.injEq]; tauto)
    | _, _, _, _, isFalse h => isFalse (by simp only [TSNode.mk.injEq]; tauto)

def TSForest.decEq : (a b : TSForest) → Decidable (a = b)
  | .nil, .nil => isTrue rfl
  | .nil, .cons _ _ => isFalse (by intro h; cases h)
  | .cons _ _, .nil => isFalse (by intro h; cases h)
  | .cons a as, .cons b bs =>
    match TSNode.decEq a b, TSForest.decEq as bs with
    | isTrue h1, isTrue h2 => isTrue (by rw [h1, h2])
    | isFalse h, _ => isFalse (by simp only [TSForest.cons.injEq]; tauto)
    | _, isFalse h => isFalse (by simp only [TSForest.cons.injEq]; tauto)
end

instance : DecidableEq TSNode := TSNode.decEq

instance : DecidableEq TSForest := TSForest.decEq

def TSForest.toList : TSForest → List TSNode
  | .nil => []
  | .cons c cs => c :: cs.toList

def TSForest.ofList : List TSNode → TSForest
  | [] => .nil
  | c :: cs => .cons c (TSForest.ofList cs)

def TSNode.kind : TSNode → String
  | .mk k _ _ _ _ => k

def TSNode.fieldLabel : TSNode → Option String
  | .mk _ f _ _ _ => f

def TSNode.nid : TSNode → Nat
  | .mk _ _ i _ _ => i

def TSNode.sp : TSNode → Nat × Nat
  | .mk _ _ _ s _ => s

def TSNode.children : TSNode → List TSNode
  | .mk _ _ _ _ cs => cs.toList

/-- Convenience constructor for concrete trees: kind, field label, identity,
span start, span end, children. -/
def tn (kind : String) (fieldLabel : Option String) (nid : Nat) (s e : Nat)
    (cs : List TSNode) : TSNode :=
  .mk kind fieldLabel nid (s, e) (TSForest.ofList cs)

/-- tree-sitter `Node::child_by_field_name`: the first child carrying the
given field label. -/
def TSNode.child_by_field_name (n : TSNode) (f : String) : Option TSNode :=
  n.children.find? (fun c => c.fieldLabel == some f)

/-- tree-sitter `Node::child(i)`: the i-th child, counting every child,
anonymous tokens included. -/
def TSNode.child (n : TSNode) (i : Nat) : Option TSNode :=
  n.children.get? i

mutual
/-- `tree_sitter_traversal::traverse(cursor, Order::Pre)`: the node itself,
then the children subtrees left to right. -/
def TSNode.preorder : TSNode → List TSNode
  | .mk k f i s cs => .mk k f i s cs :: TSForest.preorder cs

def TSForest.preorder : TSForest → List TSNode
  | .nil => []
  | .cons c cs => TSNode.preorder c ++ TSForest.preorder cs
end

/-- `node_value` from src/helpers/tree_sitter.rs: the span of the node read
back out of the source text (`utf8_text`). -/
def node_value (source : String) (n : TSNode) : String :=
  String.mk ((source.toList.drop n.sp.1).take (n.sp.2 - n.sp.1))

/-- `find_all_of_kind` from src/helpers/tree_sitter.rs. -/
def find_all_of_kind (t : TSNode) (kind : String) : List TSNode :=
  t.preorder.filter (fun n => n.kind == kind)

/-- The predicate tested on each visited node by
`find_first_of_kind_with_field_value`: the kind matches and the named
field exists with the given text; a node of the right kind lacking the
field yields `false` (the Rust code falls through to `false`, no unwrap). -/
def kind_field_value_pred (source kind fieldN value : String) (n : TSNode) : Bool :=
  n.kind == kind &&
    match n.child_by_field_name fieldN with
    | some child => node_value source child == value
    | none => false

/-- `find_first_of_kind_with_field_value` from src/helpers/tree_sitter.rs:
pre-order search for the first node satisfying `kind_field_value_pred`. -/
def find_first_of_kind_with_field_value (source : String) (t : TSNode)
    (kind fieldN value : String) : Option TSNode :=
  t.preorder.find? (kind_field_value_pred source kind fieldN value)

/-- Outcome of a `find_correct_node` call: `Ok(node)`, `Err(message)`, or a
panic of the Rust process (modelled as the value `aborted`). -/
inductive LocateResult : Type where
  | ok (node : TSNode)
  | err (msg : String)
  | aborted
deriving DecidableEq

/-- The impl-subject name computed inside the loop of
`RustAnalyzer::find_correct_node` (src/supported_languages/rust.rs):
the `type` field, unwrapped to its inner `type` field when the subject is
a `generic_type`; `none` models the `.unwrap()` panics. -/
def RustAnalyzer.impl_type_name (source : String) (parent_impl : TSNode) : Option String :=
  match parent_impl.child_by_field_name "type" with
  | none => none
  | some impl_type_node =>
    if impl_type_node.kind == "generic_type" then
      match impl_type_node.child_by_field_name "type" with
      | none => none
      | some type_name_node => some (node_value source type_name_node)
    else
      some (node_value source impl_type_node)

/-- The `candidate_subtrees` accumulation loop of
`RustAnalyzer::find_correct_node`: keep the impls whose subject name equals
the parent; outer `none` models a panic inside the loop. -/
def RustAnalyzer.candidate_subtrees (source parent : String) :
    List TSNode → Option (List TSNode)
  | [] => some []
  | i :: rest =>
    match RustAnalyzer.impl_type_name source i with
    | none => none
    | some name =>
      match RustAnalyzer.candidate_subtrees source parent rest with
      | none => none
      | some cs => some (if name == parent then i :: cs else cs)

/-- `RustAnalyzer::find_correct_node` (src/supported_languages/rust.rs). -/
def RustAnalyzer.find_correct_node (source_file : String) (root_tree : TSNode)
    (parent_identifier function_identifier : Option String) : LocateResult :=
  match function_identifier with
  | some function =>
    match parent_identifier with
    | some parent =>
      match RustAnalyzer.candidate_subtrees source_file parent
          (find_all_of_kind root_tree "impl_item") with
      | none => .aborted
      | some cands =>
        if cands.isEmpty then .err "impl block not found"
        else
          match cands.findSome? (fun c =>
              find_first_of_kind_with_field_value source_file c
                "function_item" "name" function) with
          | some function_node => .ok function_node
          | none => .err "function not found"
    | none =>
      match [root_tree].findSome? (fun c =>
          find_first_of_kind_with_field_value source_file c
            "function_item" "name" function) with
      | some function_node => .ok function_node
      | none => .err "function not found"
  | none => .ok root_tree

/-- The closure tested on each `method_declaration` inside
`GoAnalyser::find_correct_node` (src/supported_languages/go.rs): name and
receiver type (the receiver pointer indirection unwrapped through
`child(1)`) against the two identifiers; `none` models its `.unwrap()`
panics. -/
def GoAnalyser.method_matches (source_file parent function : String)
    (method_decl : TSNode) : Option Bool :=
  match method_decl.child_by_field_name "name" with
  | none => none
  | some name_node =>
    match method_decl.child_by_field_name "receiver" with
    | none => none
    | some receiver_node =>
      match receiver_node.child 1 with
      | none => none
      | some parameter_declaration_node =>
        match parameter_declaration_node.child_by_field_name "type" with
        | none => none
        | some receiver_type =>
          if receiver_type.kind == "type_identifier" then
            some (node_value source_file receiver_type == parent
                  && node_value source_file name_node == function)
          else
            match receiver_type.child 1 with
            | none => none
            | some pointer_receiver_type =>
              some (node_value source_file pointer_receiver_type == parent
                    && node_value source_file name_node == function)

/-- `Iterator::find` of the method closure, stopping at the first match;
outer `none` models a panic inside the closure. -/
def GoAnalyser.find_method (source_file parent function : String) :
    List TSNode → Option (Option TSNode)
  | [] => some none
  | m :: rest =>
    match GoAnalyser.method_matches source_file parent function m with
    | none => none
    | some true => some (some m)
    | some false => GoAnalyser.find_method source_file parent function rest

/-- `Iterator::find` of the free-function closure of
`GoAnalyser::find_correct_node`: first `function_declaration` whose `name`
field's text equals the identifier; outer `none` models the name unwrap. -/
def GoAnalyser.find_function (source_file function : String) :
    List TSNode → Option (Option TSNode)
  | [] => some none
  | f :: rest =>
    match f.child_by_field_name "name" with
    | none => none
    | some name_node =>
      if node_value source_file name_node == function then some (some f)
      else GoAnalyser.find_function source_file function rest

/-- `GoAnalyser::find_correct_node` (src/supported_languages/go.rs). -/
def GoAnalyser.find_correct_node (source_file : String) (root_tree : TSNode)
    (parent_identifier function_identifier : Option String) : LocateResult :=
  match function_identifier with
  | some function =>
    match parent_identifier with
    | some parent =>
      match GoAnalyser.find_method source_file parent function
          (find_all_of_kind root_tree "method_declaration") with
      | none => .aborted
      | some (some n) => .ok n
      | some none => .err "method not found"
    | none =>
      match GoAnalyser.find_function source_file function
          (find_all_of_kind root_tree "function_declaration") with
      | none => .aborted
      | some (some n) => .ok n
      | some none => .err "function not found"
  | none => .ok root_tree

/-- The class-search closure of `JavascriptAnalyser::find_correct_node`
(src/supported_languages/javascript.rs): first `class_declaration` whose
`name` field's text equals the parent; outer `none` models the name
unwrap. The TypeScript analyser runs the identical loop. -/
def JavascriptAnalyser.find_class (source_file parent : String) :
    List TSNode → Option (Option TSNode)
  | [] => some none
  | c :: rest =>
    match c.child_by_field_name "name" with
    | none => none
    | some class_decl_node =>
      if node_value source_file class_decl_node == parent then some (some c)
      else JavascriptAnalyser.find_class source_file parent rest

/-- The member search of the JavaScript and TypeScript analysers: keep
`method_definition` members and return the first whose `name` field's text
equals the function identifier; outer `none` models the name unwrap (the
kind filter runs before the unwrap, as in the Rust iterator chain). -/
def JavascriptAnalyser.find_method_in_members (source_file function : String) :
    List TSNode → Option (Option TSNode)
  | [] => some none
  | m :: rest =>
    if m.kind == "method_definition" then
      match m.child_by_field_name "name" with
      | none => none
      | some name_node =>
        if node_value source_file name_node == function then some (some m)
        else JavascriptAnalyser.find_method_in_members source_file function rest
    else JavascriptAnalyser.find_method_in_members source_file function rest

/-- The `lexical_declaration` fallback of the JavaScript and TypeScript
analysers: `.filter(|l| l.child(1).is_some())` then find the first whose
`child(1)`'s `name` field's text equals the function identifier; outer
`none` models the `child_by_field_name("name").unwrap()` panic. Note the
initializer of the declarator is never inspected. -/
def JavascriptAnalyser.find_lexical (source_file function : String) :
    List TSNode → Option (Option TSNode)
  | [] => some none
  | l :: rest =>
    match l.child 1 with
    | none => JavascriptAnalyser.find_lexical source_file function rest
    | some second_child =>
      match second_child.child_by_field_name "name" with
      | none => none
      | some name_node =>
        if node_value source_file name_node == function then some (some l)
        else JavascriptAnalyser.find_lexical source_file function rest

/-- `class_body.children_by_field_name("member", ..)` used by the
JavaScript analyser: the children carrying the `member` field label. -/
def JavascriptAnalyser.members_of (class_body : TSNode) : List TSNode :=
  class_body.children.filter (fun c => c.fieldLabel == some "member")

/-- `JavascriptAnalyser::find_correct_node`
(src/supported_languages/javascript.rs). -/
def JavascriptAnalyser.find_correct_node (source_file : String) (root_tree : TSNode)
    (parent_identifier function_identifier : Option String) : LocateResult :=
  match function_identifier with
  | some function =>
    match parent_identifier with
    | some parent =>
      match JavascriptAnalyser.find_class source_file parent
          (find_all_of_kind root_tree "class_declaration") with
      | none => .aborted
      | some none => .err "class not found"
      | some (some correct_class_decl_node) =>
        match correct_class_decl_node.child_by_field_name "body" with
        | none => .aborted
        | some class_body =>
          match JavascriptAnalyser.find_method_in_members source_file function
              (JavascriptAnalyser.members_of class_body) with
          | none => .aborted
          | some (some function_node) => .ok function_node
          | some none => .err "method not found"
    | none =>
      match find_first_of_kind_with_field_value source_file root_tree
          "function_declaration" "name" function with
      | some function_node => .ok function_node
      | none =>
        match JavascriptAnalyser.find_lexical source_file function
            (find_all_of_kind root_tree "lexical_declaration") with
        | none => .aborted
        | some (some function_node) => .ok function_node
        | some none => .err "function not found"
  | none => .ok root_tree

/-- `TypescriptAnalyser::find_correct_node`
(src/supported_languages/typescript.rs). Identical to the JavaScript
analyser except that the class-body search scans all children of the body
(`class_body.children(..)`) instead of only the `member`-field children;
the kind filter and the name comparison are the same, so the shared
helpers are reused. -/
def TypescriptAnalyser.find_correct_node (source_file : String) (root_tree : TSNode)
    (parent_identifier function_identifier : Option String) : LocateResult :=
  match function_identifier with
  | some function =>
    match parent_identifier with
    | some parent =>
      match JavascriptAnalyser.find_class source_file parent
          (find_all_of_kind root_tree "class_declaration") with
      | none => .aborted
      | some none => .err "class not found"
      | some (some correct_class_decl_node) =>
        match correct_class_decl_node.child_by_field_name "body" with
        | none => .aborted
        | some class_body =>
          match JavascriptAnalyser.find_method_in_members source_file function
              class_body.children with
          | none => .aborted
          | some (some function_node) => .ok function_node
          | some none => .err "method not found"
    | none =>
      match find_first_of_kind_with_field_value source_file root_tree
          "function_declaration" "name" function with
      | some function_node => .ok function_node
      | none =>
        match JavascriptAnalyser.find_lexical source_file function
            (find_all_of_kind root_tree "lexical_declaration") with
        | none => .aborted
        | some (some function_node) => .ok function_node
        | some none => .err "function not found"
  | none => .ok root_tree

/-- Outcome of `Optimizer::build` (src/main.rs): `ok located` records the
node whose identity and text the build step stores (`none` when no
function identifier was supplied, in which case the build stores
nothing), `err` its early returns, `aborted` a panic. -/
inductive BuildResult : Type where
  | ok (located : Option TSNode)
  | err (msg : String)
  | aborted
deriving DecidableEq

/-- The traversal closure of `Optimizer::build` (src/main.rs, lines
113-131): over the full pre-order traversal, the first node of kind
`function_item` whose `name` field's text equals the function name; outer
`none` models the `child_by_field_name("name").unwrap()` panic. The kind
`function_item` is hardcoded whatever language was detected, and the
`parent_element` field of the `Optimizer` is never read here. -/
def Optimizer.build_find (source_file function_name : String) :
    List TSNode → Option (Option TSNode)
  | [] => some none
  | n :: rest =>
    if n.kind == "function_item" then
      match n.child_by_field_name "name" with
      | none => none
      | some name_node =>
        if node_value source_file name_node == function_name then some (some n)
        else Optimizer.build_find source_file function_name rest
    else Optimizer.build_find source_file function_name rest

/-- `Optimizer::build` (src/main.rs), after a successful parse: the locate
step the pipeline actually performs. It takes no parent identifier
because the source never consults one. -/
def Optimizer.build (source_file : String) (root_tree : TSNode)
    (function_name : Option String) : BuildResult :=
  match function_name with
  | none => .ok none
  | some function =>
    match Optimizer.build_find source_file function root_tree.preorder with
    | none => .aborted
    | some (some n) => .ok (some n)
    | some none => .err ("failed to find function: " ++ function)

/-- Modelled from the spec: the body of `tree_sitter_edit::render` invoked
by `do_render` and `Optimizer::edit_source_file` (src/main.rs) is an
external crate, absent from this repository's sources. Following the
spec, the node whose identity matches the target is looked up in the
tree, the output is `source[0 : span.start] ++ replacement ++
source[span.end :]`, and a missing identity is the distinct failure
`NodeNotFound`. -/
def render (tree : TSNode) (source : String) (target_node_identity : Nat)
    (replacement : String) : Except String String :=
  match tree.preorder.find? (fun n => n.nid == target_node_identity) with
  | some n => .ok (String.mk (source.toList.take n.sp.1 ++ replacement.toList
      ++ source.toList.drop n.sp.2))
  | none => .error "NodeNotFound"

/-!
Concrete parse trees, each mirroring what the corresponding tree-sitter
grammar produces for the commented source text. Character indices are
listed against each node. Node identities are arbitrary distinct numbers,
as `Node::id` values are opaque.
-/

/-- Go source with one value-receiver method and no free function:
`package main\nfunc (g Greeter) greet() {}`. -/
def go_src_method : String := "package main\nfunc (g Greeter) greet() {}"

/-- The `method_declaration` node of `go_tree_method` (span 13..40). -/
def go_method_greeter : TSNode :=
  tn "method_declaration" none 4 13 40
    [tn "func" none 5 13 17 [],
     tn "parameter_list" (some "receiver") 6 18 29
      [tn "(" none 7 18 19 [],
       tn "parameter_declaration" none 8 19 28
        [tn "identifier" (some "name") 9 19 20 [],
         tn "type_identifier" (some "type") 10 21 28 []],
       tn ")" none 11 28 29 []],
     tn "field_identifier" (some "name") 12 30 35 [],
     tn "parameter_list" (some "parameters") 13 35 37
      [tn "(" none 14 35 36 [], tn ")" none 15 36 37 []],
     tn "block" (some "body") 16 38 40
      [tn "\x7b" none 17 38 39 [], tn "\x7d" none 18 39 40 []]]

/-- tree-sitter-go parse of `go_src_method`. -/
def go_tree_method : TSNode :=
  tn "source_file" none 0 0 40
    [tn "package_clause" none 1 0 12
      [tn "package" none 2 0 7 [],
       tn "package_identifier" none 3 8 12 []],
     go_method_greeter]

/-- Go source with one free function: `package main\nfunc greet() {}`. -/
def go_src_function : String := "package main\nfunc greet() {}"

/-- The `function_declaration` node of `go_tree_function` (span 13..28). -/
def go_function_greet : TSNode :=
  tn "function_declaration" none 4 13 28
    [tn "func" none 5 13 17 [],
     tn "field_identifier" (some "name") 6 18 23 [],
     tn "parameter_list" (some "parameters") 7 23 25
      [tn "(" none 8 23 24 [], tn ")" none 9 24 25 []],
     tn "block" (some "body") 10 26 28
      [tn "\x7b" none 11 26 27 [], tn "\x7d" none 12 27 28 []]]

/-- tree-sitter-go parse of `go_src_function`. -/
def go_tree_function : TSNode :=
  tn "source_file" none 0 0 28
    [tn "package_clause" none 1 0 12
      [tn "package" none 2 0 7 [],
       tn "package_identifier" none 3 8 12 []],
     go_function_greet]

/-- Go source with an empty receiver parameter list:
`package main\nfunc () foo() {}`. The tree-sitter-go grammar accepts it
without error nodes: `method_declaration` is
`"func" receiver:parameter_list name:... parameters:... body:...` and
`parameter_list` is `"(" optional(params) ")"`. -/
def go_src_empty_receiver : String := "package main\nfunc () foo() {}"

/-- tree-sitter-go parse of `go_src_empty_receiver`: the receiver list has
only the two parenthesis tokens, so its `child(1)` is the `)` token,
which carries no `type` field. -/
def go_tree_empty_receiver : TSNode :=
  tn "source_file" none 0 0 29
    [tn "package_clause" none 1 0 12
      [tn "package" none 2 0 7 [],
       tn "package_identifier" none 3 8 12 []],
     tn "method_declaration" none 4 13 29
      [tn "func" none 5 13 17 [],
       tn "parameter_list" (some "receiver") 6 18 20
        [tn "(" none 7 18 19 [], tn ")" none 8 19 20 []],
       tn "field_identifier" (some "name") 9 21 24 [],
       tn "parameter_list" (some "parameters") 10 24 26
        [tn "(" none 11 24 25 [], tn ")" none 12 25 26 []],
       tn "block" (some "body") 13 27 29
        [tn "\x7b" none 14 27 28 [], tn "\x7d" none 15 28 29 []]]]

/-- Go source with a value-receiver method and a pointer-receiver method of
the same type:
`package main\nfunc (g Greeter) greet() {}\nfunc (g *Greeter) greetPointer() {}`. -/
def go_src_two_receivers : String :=
  "package main\nfunc (g Greeter) greet() {}\nfunc (g *Greeter) greetPointer() {}"

/-- The value-receiver method node of `go_tree_two_receivers`. -/
def go_method_value : TSNode :=
  tn "method_declaration" none 4 13 40
    [tn "func" none 5 13 17 [],
     tn "parameter_list" (some "receiver") 6 18 29
      [tn "(" none 7 18 19 [],
       tn "parameter_declaration" none 8 19 28
        [tn "identifier" (some "name") 9 19 20 [],
         tn "type_identifier" (some "type") 10 21 28 []],
       tn ")" none 11 28 29 []],
     tn "field_identifier" (some "name") 12 30 35 [],
     tn "parameter_list" (some "parameters") 13 35 37
      [tn "(" none 14 35 36 [], tn ")" none 15 36 37 []],
     tn "block" (some "body") 16 38 40
      [tn "\x7b" none 17 38 39 [], tn "\x7d" none 18 39 40 []]]

/-- The bare `type_identifier` under the pointer receiver type
(`Greeter`, span 50..57). -/
def go_pointer_inner : TSNode := tn "type_identifier" none 27 50 57 []

/-- The `pointer_type` receiver type (`*Greeter`, span 49..57): its
`child(0)` is the `*` token and its `child(1)` the bare type identifier. -/
def go_pointer_rt : TSNode :=
  tn "pointer_type" (some "type") 25 49 57
    [tn "*" none 26 49 50 [], go_pointer_inner]

/-- The receiver `parameter_declaration` (`g *Greeter`, span 47..57). -/
def go_pointer_pd : TSNode :=
  tn "parameter_declaration" none 23 47 57
    [tn "identifier" (some "name") 24 47 48 [], go_pointer_rt]

/-- The receiver `parameter_list` (`(g *Greeter)`, span 46..58). -/
def go_pointer_recv : TSNode :=
  tn "parameter_list" (some "receiver") 21 46 58
    [tn "(" none 22 46 47 [], go_pointer_pd, tn ")" none 28 57 58 []]

/-- The method name node (`greetPointer`, span 59..71). -/
def go_pointer_name : TSNode := tn "field_identifier" (some "name") 29 59 71 []

/-- The pointer-receiver method node of `go_tree_two_receivers`: the
receiver type is a `pointer_type` whose `child(1)` is the bare
`type_identifier` (its `child(0)` is the `*` token). -/
def go_method_pointer : TSNode :=
  tn "method_declaration" none 19 41 76
    [tn "func" none 20 41 45 [],
     go_pointer_recv,
     go_pointer_name,
     tn "parameter_list" (some "parameters") 30 71 73
      [tn "(" none 31 71 72 [], tn ")" none 32 72 73 []],
     tn "block" (some "body") 33 74 76
      [tn "\x7b" none 34 74 75 [], tn "\x7d" none 35 75 76 []]]

/-- tree-sitter-go parse of `go_src_two_receivers`. -/
def go_tree_two_receivers : TSNode :=
  tn "source_file" none 0 0 76
    [tn "package_clause" none 1 0 12
      [tn "package" none 2 0 7 [],
       tn "package_identifier" none 3 8 12 []],
     go_method_value,
     go_method_pointer]

/-- Rust source with a free function and a method of the same name:
`fn greet() {}\nimpl Greeter { fn greet() {} }`. -/
def rust_src_shadow : String := "fn greet() {}\nimpl Greeter { fn greet() {} }"

/-- The top-level `function_item` of `rust_tree_shadow` (span 0..13). -/
def rust_free_greet : TSNode :=
  tn "function_item" none 1 0 13
    [tn "fn" none 2 0 2 [],
     tn "identifier" (some "name") 3 3 8 [],
     tn "parameters" (some "parameters") 4 8 10
      [tn "(" none 20 8 9 [], tn ")" none 21 9 10 []],
     tn "block" (some "body") 5 11 13
      [tn "\x7b" none 22 11 12 [], tn "\x7d" none 23 12 13 []]]

/-- The `function_item` inside the impl block of `rust_tree_shadow`
(span 29..42). -/
def rust_method_greet : TSNode :=
  tn "function_item" none 11 29 42
    [tn "fn" none 12 29 31 [],
     tn "identifier" (some "name") 13 32 37 [],
     tn "parameters" (some "parameters") 14 37 39
      [tn "(" none 24 37 38 [], tn ")" none 25 38 39 []],
     tn "block" (some "body") 15 40 42
      [tn "\x7b" none 26 40 41 [], tn "\x7d" none 27 41 42 []]]

/-- tree-sitter-rust parse of `rust_src_shadow`. -/
def rust_tree_shadow : TSNode :=
  tn "source_file" none 0 0 44
    [rust_free_greet,
     tn "impl_item" none 6 14 44
      [tn "impl" none 7 14 18 [],
       tn "type_identifier" (some "type") 8 19 26 [],
       tn "declaration_list" (some "body") 9 27 44
        [tn "\x7b" none 10 27 28 [],
         rust_method_greet,
         tn "\x7d" none 16 43 44 []]]]

/-- Rust source whose impl subject carries generic parameters:
`impl<T> Foo<T> { fn f() {} }`. -/
def rust_src_generic : String := "impl<T> Foo<T> { fn f() {} }"

/-- The `function_item` inside the generic impl (span 17..26). -/
def rust_generic_f : TSNode :=
  tn "function_item" none 10 17 26
    [tn "fn" none 11 17 19 [],
     tn "identifier" (some "name") 12 20 21 [],
     tn "parameters" (some "parameters") 13 21 23
      [tn "(" none 14 21 22 [], tn ")" none 15 22 23 []],
     tn "block" (some "body") 16 24 26
      [tn "\x7b" none 17 24 25 [], tn "\x7d" none 18 25 26 []]]

/-- tree-sitter-rust parse of `rust_src_generic`: the impl subject is a
`generic_type` whose `type` field is the bare `type_identifier` `Foo`. -/
def rust_tree_generic : TSNode :=
  tn "source_file" none 0 0 28
    [tn "impl_item" none 1 0 28
      [tn "impl" none 2 0 4 [],
       tn "type_parameters" (some "type_parameters") 3 4 7
        [tn "<" none 19 4 5 [],
         tn "type_identifier" none 20 5 6 [],
         tn ">" none 21 6 7 []],
       tn "generic_type" (some "type") 4 8 14
        [tn "type_identifier" (some "type") 5 8 11 [],
         tn "type_arguments" (some "type_arguments") 6 11 14
          [tn "<" none 22 11 12 [],
           tn "type_identifier" none 23 12 13 [],
           tn ">" none 24 13 14 []]],
       tn "declaration_list" (some "body") 7 15 28
        [tn "\x7b" none 8 15 16 [],
         rust_generic_f,
         tn "\x7d" none 9 27 28 []]]]

/-- Rust source whose impl subject is a plain type:
`impl Foo { fn f() {} }`. -/
def rust_src_plain : String := "impl Foo { fn f() {} }"

/-- The `function_item` inside the plain impl (span 11..20). -/
def rust_plain_f : TSNode :=
  tn "function_item" none 5 11 20
    [tn "fn" none 6 11 13 [],
     tn "identifier" (some "name") 7 14 15 [],
     tn "parameters" (some "parameters") 8 15 17
      [tn "(" none 9 15 16 [], tn ")" none 10 16 17 []],
     tn "block" (some "body") 11 18 20
      [tn "\x7b" none 12 18 19 [], tn "\x7d" none 13 19 20 []]]

/-- The `impl_item` node of `rust_tree_plain` (span 0..22). -/
def rust_impl_plain : TSNode :=
  tn "impl_item" none 1 0 22
    [tn "impl" none 2 0 4 [],
     tn "type_identifier" (some "type") 3 5 8 [],
     tn "declaration_list" (some "body") 4 9 22
      [tn "\x7b" none 14 9 10 [],
       rust_plain_f,
       tn "\x7d" none 15 21 22 []]]

/-- tree-sitter-rust parse of `rust_src_plain`. -/
def rust_tree_plain : TSNode :=
  tn "source_file" none 0 0 22 [rust_impl_plain]

/-- JavaScript source binding a non-function value: `const greet = 5;`. -/
def js_src_const_number : String := "const greet = 5;"

/-- The binding name node of the declarator (`greet`, span 6..11). -/
def js_number_name : TSNode := tn "identifier" (some "name") 4 6 11 []

/-- The `variable_declarator` of `js_lexical_number` (span 6..15): its
`name` field is the identifier `greet` and its `value` field the number
literal `5`. -/
def js_declarator_number : TSNode :=
  tn "variable_declarator" none 3 6 15
    [js_number_name,
     tn "=" none 5 12 13 [],
     tn "number" (some "value") 6 14 15 []]

/-- The `lexical_declaration` of `js_tree_const_number` (span 0..16): its
`child(1)` is the `variable_declarator`. -/
def js_lexical_number : TSNode :=
  tn "lexical_declaration" none 1 0 16
    [tn "const" none 2 0 5 [],
     js_declarator_number,
     tn ";" none 7 15 16 []]

/-- tree-sitter-javascript (and -typescript) parse of
`js_src_const_number`. -/
def js_tree_const_number : TSNode :=
  tn "program" none 0 0 16 [js_lexical_number]

/-- JavaScript source with one class and one method:
`class Greeter { greet() {} }`. -/
def js_src_class : String := "class Greeter { greet() {} }"

/-- The `name` node of the method (`greet`, span 16..21). -/
def js_method_greet_name : TSNode :=
  tn "property_identifier" (some "name") 5 16 21 []

/-- The `method_definition` member of the class body (span 16..26). -/
def js_method_greet : TSNode :=
  tn "method_definition" (some "member") 4 16 26
    [js_method_greet_name,
     tn "formal_parameters" (some "parameters") 6 21 23
      [tn "(" none 7 21 22 [], tn ")" none 8 22 23 []],
     tn "statement_block" (some "body") 9 24 26
      [tn "\x7b" none 10 24 25 [], tn "\x7d" none 11 25 26 []]]

/-- The `class_body` of `js_class_greeter` (span 14..28): the brace tokens
and the single `member`-field method definition. -/
def js_class_body : TSNode :=
  tn "class_body" (some "body") 3 14 28
    [tn "\x7b" none 12 14 15 [], js_method_greet, tn "\x7d" none 13 27 28 []]

/-- The `class_declaration` of `js_tree_class` (span 0..28). -/
def js_class_greeter : TSNode :=
  tn "class_declaration" none 1 0 28
    [tn "class" none 14 0 5 [],
     tn "identifier" (some "name") 2 6 13 [],
     js_class_body]

/-- tree-sitter-javascript (and -typescript) parse of `js_src_class`. -/
def js_tree_class : TSNode :=
  tn "program" none 0 0 28 [js_class_greeter]

/-!
Shared lemmas about the embedded helpers.
-/

/-- The search predicate of `find_first_of_kind_with_field_value`, read as a
proposition: kind match plus named field present with the given text. -/
theorem kind_field_value_pred_iff (source kind fieldN value : String) (n : TSNode) :
    kind_field_value_pred source kind fieldN value n = true ↔
      (n.kind = kind ∧
        ∃ c, n.child_by_field_name fieldN = some c ∧ node_value source c = value) := by
  unfold kind_field_value_pred
  cases h : n.child_by_field_name fieldN <;>
    simp [h, Bool.and_eq_true, beq_iff_eq]

/-- A successful `List.find?` returns the first satisfying element: every
earlier position fails the predicate. -/
theorem find?_first_index {α : Type} (p : α → Bool) :
    ∀ (l : List α) (b : α), l.find? p = some b →
      ∃ i, l.get? i = some b ∧ ∀ j < i, ∀ m, l.get? j = some m → p m = false := by
  intro l
  induction l with
  | nil => intro b h; simp [List.find?] at h
  | cons a rest ih =>
    intro b h
    cases hp : p a with
    | true =>
      rw [List.find?_cons_of_pos _ hp] at h
      refine ⟨0, by simpa using h, ?_⟩
      intro j hj
      exact absurd hj (Nat.not_lt_zero j)
    | false =>
      rw [List.find?_cons_of_neg _ (by simp [hp])] at h
      obtain ⟨i, hi, hfirst⟩ := ih b h
      refine ⟨i + 1, by simpa using hi, ?_⟩
      intro j hj m hm
      cases j with
      | zero =>
        have hma : a = m := by simpa using hm
        rw [← hma]
        exact hp
      | succ j0 =>
        exact hfirst j0 (by omega) m (by simpa using hm)

/-- The lexical fallback of the JavaScript and TypeScript analysers selects
a declaration exactly by the binding name under its second child; nothing
about the initializer is consulted. -/
theorem find_lexical_sound (source function : String) :
    ∀ (ls : List TSNode) (l : TSNode),
      JavascriptAnalyser.find_lexical source function ls = some (some l) →
      l ∈ ls ∧ ∃ c1 nm, l.child 1 = some c1 ∧
        c1.child_by_field_name "name" = some nm ∧ node_value source nm = function := by
  intro ls
  induction ls with
  | nil => intro l h; simp [JavascriptAnalyser.find_lexical] at h
  | cons a rest ih =>
    intro l h
    rw [JavascriptAnalyser.find_lexical] at h
    cases hc : a.child 1 with
    | none =>
      simp only [hc] at h
      obtain ⟨hmem, rest_h⟩ := ih l h
      exact ⟨List.mem_cons_of_mem a hmem, rest_h⟩
    | some c1 =>
      simp only [hc] at h
      cases hn : c1.child_by_field_name "name" with
      | none => simp only [hn] at h; simp at h
      | some nm =>
        simp only [hn] at h
        by_cases hv : (node_value source nm == function) = true
        · rw [if_pos hv] at h
          obtain rfl : a = l := by simpa using h
          exact ⟨List.mem_cons_self a rest, c1, nm, hc, hn, beq_iff_eq.mp hv⟩
        · rw [if_neg hv] at h
          obtain ⟨hmem, rest_h⟩ := ih l h
          exact ⟨List.mem_cons_of_mem a hmem, rest_h⟩

/-- When no impl subject matches the parent (each computing a name), the
Rust candidate loop completes with an empty candidate list. -/
theorem candidate_subtrees_of_no_match (source parent : String) :
    ∀ impls : List TSNode,
      (∀ i ∈ impls, ∃ nm, RustAnalyzer.impl_type_name source i = some nm ∧ nm ≠ parent) →
      RustAnalyzer.candidate_subtrees source parent impls = some [] := by
  intro impls
  induction impls with
  | nil => intro _; rfl
  | cons a rest ih =>
    intro h
    obtain ⟨nm, hnm, hne⟩ := h a (List.mem_cons_self a rest)
    rw [RustAnalyzer.candidate_subtrees]
    simp only [hnm, ih (fun i hi => h i (List.mem_cons_of_mem a hi))]
    simp [hne]

/-- When no class has the parent as its name (each carrying a name), the
class search of the JavaScript and TypeScript analysers completes empty. -/
theorem find_class_of_no_match (source parent : String) :
    ∀ cs : List TSNode,
      (∀ c ∈ cs, ∃ nm, c.child_by_field_name "name" = some nm ∧
        node_value source nm ≠ parent) →
      JavascriptAnalyser.find_class source parent cs = some none := by
  intro cs
  induction cs with
  | nil => intro _; rfl
  | cons a rest ih =>
    intro h
    obtain ⟨nm, hnm, hne⟩ := h a (List.mem_cons_self a rest)
    rw [JavascriptAnalyser.find_class]
    simp only [hnm]
    rw [if_neg (by simpa using hne)]
    exact ih (fun c hc => h c (List.mem_cons_of_mem a hc))

/-!
Wellformedness of candidate nodes: exactly the fields and children each
strategy unwraps. On nodes passing these checks the strategies cannot
panic.
-/

/-- The accesses of the Rust impl loop: a `type` field, and an inner `type`
field when the subject is a `generic_type`. -/
def rust_impl_wf (i : TSNode) : Bool :=
  match i.child_by_field_name "type" with
  | none => false
  | some tnode =>
    !(tnode.kind == "generic_type") || (tnode.child_by_field_name "type").isSome

/-- The accesses of the Go method closure: a `name`, a `receiver` with a
second child carrying a `type` field, and a second child of the receiver
type when it is not a bare `type_identifier`. -/
def go_method_wf (m : TSNode) : Bool :=
  (m.child_by_field_name "name").isSome &&
    match m.child_by_field_name "receiver" with
    | none => false
    | some recv =>
      match recv.child 1 with
      | none => false
      | some pd =>
        match pd.child_by_field_name "type" with
        | none => false
        | some rt => rt.kind == "type_identifier" || (rt.child 1).isSome

/-- The access of the Go free-function closure: a `name` field. -/
def go_function_wf (f : TSNode) : Bool :=
  (f.child_by_field_name "name").isSome

/-- The accesses of the JavaScript/TypeScript class loop: a `name` and a
`body` field on each class declaration. -/
def js_class_wf (c : TSNode) : Bool :=
  (c.child_by_field_name "name").isSome && (c.child_by_field_name "body").isSome

/-- The access of the JavaScript/TypeScript member search: a `name` field
on each `method_definition` member. -/
def js_method_wf (m : TSNode) : Bool :=
  !(m.kind == "method_definition") || (m.child_by_field_name "name").isSome

/-- The access of the lexical fallback: a `name` field under the second
child, whenever a second child exists. -/
def js_lexical_wf (l : TSNode) : Bool :=
  match l.child 1 with
  | none => true
  | some c1 => (c1.child_by_field_name "name").isSome

theorem js_class_wf_name {c : TSNode} (h : js_class_wf c = true) :
    (c.child_by_field_name "name").isSome = true := by
  unfold js_class_wf at h
  exact (by simpa using h : _ ∧ _).1

theorem js_class_wf_body {c : TSNode} (h : js_class_wf c = true) :
    (c.child_by_field_name "body").isSome = true := by
  unfold js_class_wf at h
  exact (by simpa using h : _ ∧ _).2

theorem impl_type_name_isSome_of_wf (source : String) (i : TSNode)
    (h : rust_impl_wf i = true) :
    (RustAnalyzer.impl_type_name source i).isSome = true := by
  unfold rust_impl_wf at h
  unfold RustAnalyzer.impl_type_name
  cases ht : i.child_by_field_name "type" with
  | none => rw [ht] at h; simp at h
  | some tnode =>
    simp only [ht] at h ⊢
    by_cases hg : (tnode.kind == "generic_type") = true
    · simp only [hg, Bool.not_true, Bool.false_or] at h
      obtain ⟨inner, hin⟩ := Option.isSome_iff_exists.mp h
      simp [hg, hin]
    · simp [hg]

theorem candidate_subtrees_isSome_of_wf (source parent : String) :
    ∀ impls : List TSNode, (∀ i ∈ impls, rust_impl_wf i = true) →
      (RustAnalyzer.candidate_subtrees source parent impls).isSome = true := by
  intro impls
  induction impls with
  | nil => intro _; rfl
  | cons a rest ih =>
    intro h
    obtain ⟨nm, hnm⟩ := Option.isSome_iff_exists.mp
      (impl_type_name_isSome_of_wf source a (h a (List.mem_cons_self a rest)))
    obtain ⟨cs, hcs⟩ := Option.isSome_iff_exists.mp
      (ih (fun i hi => h i (List.mem_cons_of_mem a hi)))
    rw [RustAnalyzer.candidate_subtrees]
    simp [hnm, hcs]

theorem method_matches_isSome_of_wf (source parent function : String) (m : TSNode)
    (h : go_method_wf m = true) :
    (GoAnalyser.method_matches source parent function m).isSome = true := by
  unfold go_method_wf at h
  unfold GoAnalyser.method_matches
  rw [Bool.and_eq_true] at h
  obtain ⟨hname, hrest⟩ := h
  obtain ⟨nm, hnm⟩ := Option.isSome_iff_exists.mp hname
  simp only [hnm]
  cases hr : m.child_by_field_name "receiver" with
  | none => rw [hr] at hrest; simp at hrest
  | some recv =>
    simp only [hr] at hrest ⊢
    cases hc : recv.child 1 with
    | none => rw [hc] at hrest; simp at hrest
    | some pd =>
      simp only [hc] at hrest ⊢
      cases htp : pd.child_by_field_name "type" with
      | none => rw [htp] at hrest; simp at hrest
      | some rt =>
        simp only [htp] at hrest ⊢
        by_cases hk : (rt.kind == "type_identifier") = true
        · simp [hk]
        · simp only [hk, Bool.false_or] at hrest
          obtain ⟨inner, hin⟩ := Option.isSome_iff_exists.mp hrest
          simp [hk, hin]

theorem find_method_isSome_of_wf (source parent function : String) :
    ∀ ms : List TSNode, (∀ m ∈ ms, go_method_wf m = true) →
      (GoAnalyser.find_method source parent function ms).isSome = true := by
  intro ms
  induction ms with
  | nil => intro _; rfl
  | cons a rest ih =>
    intro h
    obtain ⟨b, hb⟩ := Option.isSome_iff_exists.mp
      (method_matches_isSome_of_wf source parent function a
        (h a (List.mem_cons_self a rest)))
    rw [GoAnalyser.find_method]
    simp only [hb]
    cases b with
    | true => rfl
    | false => exact ih (fun m hm => h m (List.mem_cons_of_mem a hm))

theorem find_function_isSome_of_wf (source function : String) :
    ∀ fs : List TSNode, (∀ f ∈ fs, go_function_wf f = true) →
      (GoAnalyser.find_function source function fs).isSome = true := by
  intro fs
  induction fs with
  | nil => intro _; rfl
  | cons a rest ih =>
    intro h
    obtain ⟨nm, hnm⟩ := Option.isSome_iff_exists.mp (h a (List.mem_cons_self a rest))
    rw [GoAnalyser.find_function]
    simp only [hnm]
    by_cases hv : (node_value source nm == function) = true
    · simp [hv]
    · rw [if_neg hv]
      exact ih (fun f hf => h f (List.mem_cons_of_mem a hf))

theorem find_class_isSome_of_wf (source parent : String) :
    ∀ cs : List TSNode, (∀ c ∈ cs, (c.child_by_field_name "name").isSome = true) →
      (JavascriptAnalyser.find_class source parent cs).isSome = true := by
  intro cs
  induction cs with
  | nil => intro _; rfl
  | cons a rest ih =>
    intro h
    obtain ⟨nm, hnm⟩ := Option.isSome_iff_exists.mp (h a (List.mem_cons_self a rest))
    rw [JavascriptAnalyser.find_class]
    simp only [hnm]
    by_cases hv : (node_value source nm == parent) = true
    · simp [hv]
    · rw [if_neg hv]
      exact ih (fun c hc => h c (List.mem_cons_of_mem a hc))

theorem find_class_sound (source parent : String) :
    ∀ (cs : List TSNode) (c : TSNode),
      JavascriptAnalyser.find_class source parent cs = some (some c) → c ∈ cs := by
  intro cs
  induction cs with
  | nil => intro c h; simp [JavascriptAnalyser.find_class] at h
  | cons a rest ih =>
    intro c h
    rw [JavascriptAnalyser.find_class] at h
    cases hnm : a.child_by_field_name "name" with
    | none => simp only [hnm] at h; simp at h
    | some nm =>
      simp only [hnm] at h
      by_cases hv : (node_value source nm == parent) = true
      · rw [if_pos hv] at h
        obtain rfl : a = c := by simpa using h
        exact List.mem_cons_self a rest
      · rw [if_neg hv] at h
        exact List.mem_cons_of_mem a (ih c h)

theorem find_method_in_members_isSome_of_wf (source function : String) :
    ∀ ms : List TSNode, (∀ m ∈ ms, js_method_wf m = true) →
      (JavascriptAnalyser.find_method_in_members source function ms).isSome = true := by
  intro ms
  induction ms with
  | nil => intro _; rfl
  | cons a rest ih =>
    intro h
    have ha := h a (List.mem_cons_self a rest)
    have hrest := ih (fun m hm => h m (List.mem_cons_of_mem a hm))
    rw [JavascriptAnalyser.find_method_in_members]
    by_cases hk : (a.kind == "method_definition") = true
    · unfold js_method_wf at ha
      simp only [hk, Bool.not_true, Bool.false_or] at ha
      obtain ⟨nm, hnm⟩ := Option.isSome_iff_exists.mp ha
      simp only [hk, if_true, hnm]
      by_cases hv : (node_value source nm == function) = true
      · simp [hv]
      · rw [if_neg hv]
        exact hrest
    · simp only [hk]
      simpa using hrest

theorem find_lexical_isSome_of_wf (source function : String) :
    ∀ ls : List TSNode, (∀ l ∈ ls, js_lexical_wf l = true) →
      (JavascriptAnalyser.find_lexical source function ls).isSome = true := by
  intro ls
  induction ls with
  | nil => intro _; rfl
  | cons a rest ih =>
    intro h
    have ha := h a (List.mem_cons_self a rest)
    have hrest := ih (fun l hl => h l (List.mem_cons_of_mem a hl))
    rw [JavascriptAnalyser.find_lexical]
    unfold js_lexical_wf at ha
    cases hc : a.child 1 with
    | none => simp only [hc]; exact hrest
    | some c1 =>
      simp only [hc] at ha ⊢
      obtain ⟨nm, hnm⟩ := Option.isSome_iff_exists.mp ha
      simp only [hnm]
      by_cases hv : (node_value source nm == function) = true
      · simp [hv]
      · rw [if_neg hv]
        exact hrest

/-- Strings rebuilt from their own character list are unchanged. -/
theorem string_mk_toList (s : String) : String.mk s.toList = s := rfl

/-!
The claims.
-/

/-- C8: `find_first_of_kind_with_field_value` returns the first node, in
pre-order depth-first order, whose kind equals the given kind and whose
named field's extracted text equals the given value byte-for-byte; it
stops at that first match (every earlier position fails the search
condition), returns none exactly when no node satisfies it, and a node of
the right kind lacking the named field never satisfies it, so it is
skipped without error. -/
theorem find_first_of_kind_with_field_value_spec
    (source kind fieldN value : String) (t : TSNode) :
    (∀ n, find_first_of_kind_with_field_value source t kind fieldN value = some n →
      (n.kind = kind ∧
        ∃ c, n.child_by_field_name fieldN = some c ∧ node_value source c = value) ∧
      ∃ i, t.preorder.get? i = some n ∧
        ∀ j < i, ∀ m, t.preorder.get? j = some m →
          ¬(m.kind = kind ∧
            ∃ c, m.child_by_field_name fieldN = some c ∧ node_value source c = value)) ∧
    (find_first_of_kind_with_field_value source t kind fieldN value = none ↔
      ∀ n ∈ t.preorder,
        ¬(n.kind = kind ∧
          ∃ c, n.child_by_field_name fieldN = some c ∧ node_value source c = value)) := by
  constructor
  · intro n h
    have hp := List.find?_some h
    refine ⟨(kind_field_value_pred_iff source kind fieldN value n).mp hp, ?_⟩
    obtain ⟨i, hi, hfirst⟩ := find?_first_index _ _ _ h
    refine ⟨i, hi, fun j hj m hm hP => ?_⟩
    have hfalse := hfirst j hj m hm
    rw [(kind_field_value_pred_iff source kind fieldN value m).mpr hP] at hfalse
    cases hfalse
  · unfold find_first_of_kind_with_field_value
    rw [List.find?_eq_none]
    constructor
    · intro h n hn hP
      exact h n hn ((kind_field_value_pred_iff source kind fieldN value n).mpr hP)
    · intro h n hn hp
      exact h n hn ((kind_field_value_pred_iff source kind fieldN value n).mp hp)

/-- Closed instance of C8 at the search for `function_item` named `greet`
over `rust_tree_shadow`, which returns the top-level function. -/
theorem find_first_of_kind_with_field_value_spec_witness :
    (rust_free_greet.kind = "function_item" ∧
      ∃ c, rust_free_greet.child_by_field_name "name" = some c ∧
        node_value rust_src_shadow c = "greet") ∧
    ∃ i, rust_tree_shadow.preorder.get? i = some rust_free_greet ∧
      ∀ j < i, ∀ m, rust_tree_shadow.preorder.get? j = some m →
        ¬(m.kind = "function_item" ∧
          ∃ c, m.child_by_field_name "name" = some c ∧
            node_value rust_src_shadow c = "greet") :=
  (find_first_of_kind_with_field_value_spec rust_src_shadow "function_item" "name"
    "greet" rust_tree_shadow).1 rust_free_greet (by decide)

/-- C6: with an absent function identifier, each of the four strategies
returns Ok with the tree's root node regardless of the parent identifier,
and a root node spanning the whole file extracts the entire original
source text verbatim. -/
theorem locate_without_function_is_whole_file (source : String) (t : TSNode)
    (parent_identifier : Option String) :
    RustAnalyzer.find_correct_node source t parent_identifier none = .ok t ∧
    GoAnalyser.find_correct_node source t parent_identifier none = .ok t ∧
    JavascriptAnalyser.find_correct_node source t parent_identifier none = .ok t ∧
    TypescriptAnalyser.find_correct_node source t parent_identifier none = .ok t ∧
    (t.sp = (0, source.toList.length) → node_value source t = source) := by
  refine ⟨rfl, rfl, rfl, rfl, fun h => ?_⟩
  obtain ⟨data⟩ := source
  unfold node_value
  rw [h]
  simp [String.toList]

/-- Closed instance of C6 on `rust_tree_shadow`, whose root spans the whole
file. -/
theorem locate_without_function_is_whole_file_witness :
    RustAnalyzer.find_correct_node rust_src_shadow rust_tree_shadow (some "X") none =
      .ok rust_tree_shadow ∧
    GoAnalyser.find_correct_node rust_src_shadow rust_tree_shadow (some "X") none =
      .ok rust_tree_shadow ∧
    JavascriptAnalyser.find_correct_node rust_src_shadow rust_tree_shadow (some "X") none =
      .ok rust_tree_shadow ∧
    TypescriptAnalyser.find_correct_node rust_src_shadow rust_tree_shadow (some "X") none =
      .ok rust_tree_shadow ∧
    node_value rust_src_shadow rust_tree_shadow = rust_src_shadow :=
  have h := locate_without_function_is_whole_file rust_src_shadow rust_tree_shadow (some "X")
  ⟨h.1, h.2.1, h.2.2.1, h.2.2.2.1, h.2.2.2.2 (by decide)⟩

/-- C1, counterexample: the Go strategy collapses the two failure kinds.
On `go_tree_method` (one method `greet` under the one container `Greeter`)
the query with a nonexistent parent and existing method name and the query
with the existing parent and a nonexistent method name return the
identical failure value, while the control query succeeds. -/
theorem go_parent_and_function_failures_collapsed :
    GoAnalyser.find_correct_node go_src_method go_tree_method (some "B") (some "greet") =
      GoAnalyser.find_correct_node go_src_method go_tree_method
        (some "Greeter") (some "nope") ∧
    GoAnalyser.find_correct_node go_src_method go_tree_method (some "B") (some "greet") =
      .err "method not found" ∧
    GoAnalyser.find_correct_node go_src_method go_tree_method
      (some "Greeter") (some "greet") = .ok go_method_greeter :=
  ⟨by decide, by decide, by decide⟩

/-- When no `method_definition` member carries the function identifier as
its name (each carrying a name), the member search of the JavaScript and
TypeScript analysers completes empty. -/
theorem find_method_in_members_of_no_match (source function : String) :
    ∀ ms : List TSNode,
      (∀ m ∈ ms, m.kind = "method_definition" →
        ∃ nm, m.child_by_field_name "name" = some nm ∧
          node_value source nm ≠ function) →
      JavascriptAnalyser.find_method_in_members source function ms = some none := by
  intro ms
  induction ms with
  | nil => intro _; rfl
  | cons a rest ih =>
    intro h
    have hrest := ih (fun m hm => h m (List.mem_cons_of_mem a hm))
    rw [JavascriptAnalyser.find_method_in_members]
    by_cases hk : (a.kind == "method_definition") = true
    · obtain ⟨nm, hnm, hne⟩ := h a (List.mem_cons_self a rest) (beq_iff_eq.mp hk)
      simp only [hk, if_true, hnm]
      rw [if_neg (by simpa using hne)]
      exact hrest
    · simp only [hk]
      simpa using hrest

/-- When no lexical declaration binds the function identifier (each second
child carrying a name), the lexical fallback of the JavaScript and
TypeScript analysers completes empty. -/
theorem find_lexical_of_no_match (source function : String) :
    ∀ ls : List TSNode,
      (∀ l ∈ ls, ∀ c1, l.child 1 = some c1 →
        ∃ nm, c1.child_by_field_name "name" = some nm ∧
          node_value source nm ≠ function) →
      JavascriptAnalyser.find_lexical source function ls = some none := by
  intro ls
  induction ls with
  | nil => intro _; rfl
  | cons a rest ih =>
    intro h
    have hrest := ih (fun l hl => h l (List.mem_cons_of_mem a hl))
    rw [JavascriptAnalyser.find_lexical]
    cases hc : a.child 1 with
    | none =>
      simp only [hc]
      exact hrest
    | some c1 =>
      obtain ⟨nm, hnm, hne⟩ := h a (List.mem_cons_self a rest) c1 hc
      simp only [hc, hnm]
      rw [if_neg (by simpa using hne)]
      exact hrest

/-- C1, amended: for the Rust, JavaScript and TypeScript strategies an
unresolved parent and an unresolved function are reported through distinct
failure values — the parent failures (`impl block not found`,
`class not found`) are derived, the function failures under a resolved
class (`method not found`) and without a parent (`function not found`)
are derived, and the values differ; for the Go strategy, with both
identifiers present, every failure — unmatched parent or unmatched method
name — is the single value `method not found`. -/
theorem locate_failure_values (source : String) (t : TSNode) (parent function : String) :
    ((∀ i ∈ find_all_of_kind t "impl_item",
        ∃ nm, RustAnalyzer.impl_type_name source i = some nm ∧ nm ≠ parent) →
      RustAnalyzer.find_correct_node source t (some parent) (some function) =
        .err "impl block not found") ∧
    (find_first_of_kind_with_field_value source t "function_item" "name" function =
        none →
      RustAnalyzer.find_correct_node source t none (some function) =
        .err "function not found") ∧
    ((∀ c ∈ find_all_of_kind t "class_declaration",
        ∃ nm, c.child_by_field_name "name" = some nm ∧ node_value source nm ≠ parent) →
      JavascriptAnalyser.find_correct_node source t (some parent) (some function) =
        .err "class not found" ∧
      TypescriptAnalyser.find_correct_node source t (some parent) (some function) =
        .err "class not found") ∧
    (∀ cls body,
      JavascriptAnalyser.find_class source parent
        (find_all_of_kind t "class_declaration") = some (some cls) →
      cls.child_by_field_name "body" = some body →
      (∀ m ∈ body.children, m.kind = "method_definition" →
        ∃ nm, m.child_by_field_name "name" = some nm ∧
          node_value source nm ≠ function) →
      JavascriptAnalyser.find_correct_node source t (some parent) (some function) =
        .err "method not found" ∧
      TypescriptAnalyser.find_correct_node source t (some parent) (some function) =
        .err "method not found") ∧
    (find_first_of_kind_with_field_value source t "function_declaration" "name"
        function = none →
      (∀ l ∈ find_all_of_kind t "lexical_declaration", ∀ c1, l.child 1 = some c1 →
        ∃ nm, c1.child_by_field_name "name" = some nm ∧
          node_value source nm ≠ function) →
      JavascriptAnalyser.find_correct_node source t none (some function) =
        .err "function not found" ∧
      TypescriptAnalyser.find_correct_node source t none (some function) =
        .err "function not found") ∧
    (∀ msg, GoAnalyser.find_correct_node source t (some parent) (some function) =
        .err msg → msg = "method not found") ∧
    LocateResult.err "impl block not found" ≠ LocateResult.err "function not found" ∧
    LocateResult.err "class not found" ≠ LocateResult.err "method not found" ∧
    LocateResult.err "class not found" ≠ LocateResult.err "function not found" := by
  refine ⟨?_, ?_, ?_, ?_, ?_, ?_, by decide, by decide, by decide⟩
  · intro h
    simp [RustAnalyzer.find_correct_node,
      candidate_subtrees_of_no_match source parent _ h]
  · intro h
    simp [RustAnalyzer.find_correct_node, h]
  · intro h
    have hc := find_class_of_no_match source parent _ h
    exact ⟨by simp [JavascriptAnalyser.find_correct_node, hc],
           by simp [TypescriptAnalyser.find_correct_node, hc]⟩
  · intro cls body hcls hb hmm
    have hjs := find_method_in_members_of_no_match source function
      (JavascriptAnalyser.members_of body)
      (fun m hm hk => hmm m (List.mem_of_mem_filter hm) hk)
    have hts := find_method_in_members_of_no_match source function body.children hmm
    exact ⟨by simp [JavascriptAnalyser.find_correct_node, hcls, hb, hjs],
           by simp [TypescriptAnalyser.find_correct_node, hcls, hb, hts]⟩
  · intro h1 h2
    have hl := find_lexical_of_no_match source function
      (find_all_of_kind t "lexical_declaration") h2
    exact ⟨by simp [JavascriptAnalyser.find_correct_node, h1, hl],
           by simp [TypescriptAnalyser.find_correct_node, h1, hl]⟩
  · intro msg h
    cases hm : GoAnalyser.find_method source parent function
        (find_all_of_kind t "method_declaration") with
    | none => simp [GoAnalyser.find_correct_node, hm] at h
    | some om =>
      cases om with
      | none =>
        simp only [GoAnalyser.find_correct_node, hm] at h
        exact (by simpa using h.symm : msg = "method not found")
      | some n => simp [GoAnalyser.find_correct_node, hm] at h

/-- Closed instance of C1's amended theorem, exercising every failure
value: on the class-free `js_tree_const_number` the parent failures and
the no-parent function failure, and on `js_tree_class` (class `Greeter`
resolved) the method failure. -/
theorem locate_failure_values_witness :
    RustAnalyzer.find_correct_node js_src_const_number js_tree_const_number
      (some "A") (some "f") = .err "impl block not found" ∧
    RustAnalyzer.find_correct_node js_src_const_number js_tree_const_number
      none (some "f") = .err "function not found" ∧
    JavascriptAnalyser.find_correct_node js_src_const_number js_tree_const_number
      (some "A") (some "f") = .err "class not found" ∧
    TypescriptAnalyser.find_correct_node js_src_const_number js_tree_const_number
      (some "A") (some "f") = .err "class not found" ∧
    JavascriptAnalyser.find_correct_node js_src_const_number js_tree_const_number
      none (some "f") = .err "function not found" ∧
    TypescriptAnalyser.find_correct_node js_src_const_number js_tree_const_number
      none (some "f") = .err "function not found" ∧
    JavascriptAnalyser.find_correct_node js_src_class js_tree_class
      (some "Greeter") (some "nope") = .err "method not found" ∧
    TypescriptAnalyser.find_correct_node js_src_class js_tree_class
      (some "Greeter") (some "nope") = .err "method not found" :=
  have hA := locate_failure_values js_src_const_number js_tree_const_number "A" "f"
  have hB := locate_failure_values js_src_class js_tree_class "Greeter" "nope"
  have himp : ∀ i ∈ find_all_of_kind js_tree_const_number "impl_item",
      ∃ nm, RustAnalyzer.impl_type_name js_src_const_number i = some nm ∧ nm ≠ "A" := by
    intro i hi
    rw [show find_all_of_kind js_tree_const_number "impl_item" = [] from rfl] at hi
    exact absurd hi (List.not_mem_nil i)
  have hcls : ∀ c ∈ find_all_of_kind js_tree_const_number "class_declaration",
      ∃ nm, c.child_by_field_name "name" = some nm ∧
        node_value js_src_const_number nm ≠ "A" := by
    intro c hc
    rw [show find_all_of_kind js_tree_const_number "class_declaration" = [] from rfl] at hc
    exact absurd hc (List.not_mem_nil c)
  have hlex : ∀ l ∈ find_all_of_kind js_tree_const_number "lexical_declaration",
      ∀ c1, l.child 1 = some c1 →
      ∃ nm, c1.child_by_field_name "name" = some nm ∧
        node_value js_src_const_number nm ≠ "f" := by
    intro l hl c1 hc
    rw [show find_all_of_kind js_tree_const_number "lexical_declaration"
        = [js_lexical_number] from rfl] at hl
    obtain rfl : l = js_lexical_number := by simpa using hl
    rw [show js_lexical_number.child 1 = some js_declarator_number from rfl] at hc
    obtain rfl : js_declarator_number = c1 := by simpa using hc
    exact ⟨js_number_name, by decide, by decide⟩
  have hmm : ∀ m ∈ js_class_body.children, m.kind = "method_definition" →
      ∃ nm, m.child_by_field_name "name" = some nm ∧
        node_value js_src_class nm ≠ "nope" := by
    intro m hm hk
    rw [show js_class_body.children = [tn "\x7b" none 12 14 15 [], js_method_greet,
        tn "\x7d" none 13 27 28 []] from rfl] at hm
    rcases (by simpa using hm :
        m = tn "\x7b" none 12 14 15 [] ∨ m = js_method_greet ∨
          m = tn "\x7d" none 13 27 28 []) with rfl | rfl | rfl
    · exact absurd hk (by decide)
    · exact ⟨js_method_greet_name, by decide, by decide⟩
    · exact absurd hk (by decide)
  have hfnA := hA.2.2.2.2.1 (by decide) hlex
  have hmB := hB.2.2.2.1 js_class_greeter js_class_body (by decide) (by decide) hmm
  ⟨hA.1 himp, hA.2.1 (by decide), (hA.2.2.1 hcls).1, (hA.2.2.1 hcls).2,
   hfnA.1, hfnA.2, hmB.1, hmB.2⟩

/-- C2, counterexample: on the file `const greet = 5;` both the JavaScript
and the TypeScript strategy, queried without parent for `greet`, return
the lexical declaration although its declarator's initializer is the
number literal `5`, not a function expression or an arrow function. -/
theorem lexical_with_nonfunction_initializer_returned :
    JavascriptAnalyser.find_correct_node js_src_const_number js_tree_const_number
      none (some "greet") = .ok js_lexical_number ∧
    TypescriptAnalyser.find_correct_node js_src_const_number js_tree_const_number
      none (some "greet") = .ok js_lexical_number ∧
    ((js_lexical_number.child 1).bind
      (fun d => d.child_by_field_name "value")).map TSNode.kind = some "number" ∧
    "number" ≠ "function_expression" ∧ "number" ≠ "arrow_function" :=
  ⟨by decide, by decide, by decide, by decide, by decide⟩

/-- C2, amended: when the parent identifier is absent and no
`function_declaration` matches, the JavaScript and TypeScript strategies
select a `lexical_declaration` exactly by the `name` field of its second
child being equal to the function identifier; the initializer of the
binding is never inspected, so a matching binding initialized to a
non-function value is returned as well. -/
theorem lexical_selected_by_binding_name_only (source function : String) (t : TSNode)
    (l : TSNode)
    (h1 : find_first_of_kind_with_field_value source t "function_declaration" "name"
      function = none)
    (h2 : JavascriptAnalyser.find_lexical source function
      (find_all_of_kind t "lexical_declaration") = some (some l)) :
    JavascriptAnalyser.find_correct_node source t none (some function) = .ok l ∧
    TypescriptAnalyser.find_correct_node source t none (some function) = .ok l ∧
    l ∈ find_all_of_kind t "lexical_declaration" ∧
    ∃ c1 nm, l.child 1 = some c1 ∧ c1.child_by_field_name "name" = some nm ∧
      node_value source nm = function := by
  obtain ⟨hmem, hsel⟩ := find_lexical_sound source function _ l h2
  exact ⟨by simp [JavascriptAnalyser.find_correct_node, h1, h2],
         by simp [TypescriptAnalyser.find_correct_node, h1, h2], hmem, hsel⟩

/-- Closed instance of C2's amended theorem on `js_tree_const_number`. -/
theorem lexical_selected_by_binding_name_only_witness :
    JavascriptAnalyser.find_correct_node js_src_const_number js_tree_const_number
      none (some "greet") = .ok js_lexical_number ∧
    TypescriptAnalyser.find_correct_node js_src_const_number js_tree_const_number
      none (some "greet") = .ok js_lexical_number ∧
    js_lexical_number ∈ find_all_of_kind js_tree_const_number "lexical_declaration" ∧
    ∃ c1 nm, js_lexical_number.child 1 = some c1 ∧
      c1.child_by_field_name "name" = some nm ∧
      node_value js_src_const_number nm = "greet" :=
  lexical_selected_by_binding_name_only js_src_const_number "greet"
    js_tree_const_number js_lexical_number (by decide) (by decide)

/-- C3: the build step of the pipeline does not agree with the detected
language strategy. On a Rust file with a free `greet` and a method `greet`
under `impl Greeter`, build records the free function while the Rust
strategy, given parent `Greeter`, returns the method. On a Go file whose
`greet` exists as a `function_declaration`, build fails outright (it
searches the Rust-only kind `function_item`) while the Go strategy
succeeds. -/
theorem build_diverges_from_strategy :
    Optimizer.build rust_src_shadow rust_tree_shadow (some "greet") =
      .ok (some rust_free_greet) ∧
    RustAnalyzer.find_correct_node rust_src_shadow rust_tree_shadow
      (some "Greeter") (some "greet") = .ok rust_method_greet ∧
    rust_free_greet ≠ rust_method_greet ∧
    Optimizer.build go_src_function go_tree_function (some "greet") =
      .err "failed to find function: greet" ∧
    GoAnalyser.find_correct_node go_src_function go_tree_function none (some "greet") =
      .ok go_function_greet :=
  ⟨by decide, by decide, by decide, by decide, by decide⟩

/-- C4: render returns exactly the concatenation of the prefix before the
identified node's span, the replacement, and the suffix after the span;
the output length obeys the stated invariant and every character outside
the replaced span is unchanged (equal prefix before the span start, equal
suffix after the replacement). Modelled from the spec, as the render body
lives in the external tree_sitter_edit crate. -/
theorem render_splices_exact_span (tree : TSNode) (source : String)
    (target_node_identity : Nat) (replacement : String) (n : TSNode)
    (hfind : tree.preorder.find? (fun m => m.nid == target_node_identity) = some n)
    (h1 : n.sp.1 ≤ n.sp.2) (h2 : n.sp.2 ≤ source.toList.length) :
    ∃ out, render tree source target_node_identity replacement = .ok out ∧
      out.toList = source.toList.take n.sp.1 ++ replacement.toList
        ++ source.toList.drop n.sp.2 ∧
      out.toList.length
        = source.toList.length - (n.sp.2 - n.sp.1) + replacement.toList.length ∧
      out.toList.take n.sp.1 = source.toList.take n.sp.1 ∧
      out.toList.drop (n.sp.1 + replacement.toList.length)
        = source.toList.drop n.sp.2 := by
  have hout : render tree source target_node_identity replacement =
      .ok (String.mk (source.toList.take n.sp.1 ++ replacement.toList
        ++ source.toList.drop n.sp.2)) := by
    unfold render
    rw [hfind]
  have htl : (String.mk (source.toList.take n.sp.1 ++ replacement.toList
      ++ source.toList.drop n.sp.2)).toList
      = source.toList.take n.sp.1 ++ replacement.toList
        ++ source.toList.drop n.sp.2 := rfl
  refine ⟨_, hout, htl, ?_, ?_, ?_⟩
  · rw [htl]
    simp only [List.length_append, List.length_take, List.length_drop]
    omega
  · rw [htl, List.append_assoc]
    have hle : n.sp.1 ≤ (source.toList.take n.sp.1).length := by
      simp only [List.length_take]
      omega
    rw [List.take_append_of_le_length hle]
    simp [List.take_take]
  · rw [htl]
    have hlen : (source.toList.take n.sp.1 ++ replacement.toList).length
        = n.sp.1 + replacement.toList.length := by
      simp only [List.length_append, List.length_take]
      omega
    rw [← hlen, List.drop_left]

/-- Closed instance of C4 at replacing the top-level function of
`rust_tree_shadow` (identity 1, span 0..13) with the text `NEW`. -/
theorem render_splices_exact_span_witness :
    ∃ out, render rust_tree_shadow rust_src_shadow 1 "NEW" = .ok out ∧
      out.toList = rust_src_shadow.toList.take rust_free_greet.sp.1
        ++ "NEW".toList ++ rust_src_shadow.toList.drop rust_free_greet.sp.2 ∧
      out.toList.length = rust_src_shadow.toList.length
        - (rust_free_greet.sp.2 - rust_free_greet.sp.1) + "NEW".toList.length ∧
      out.toList.take rust_free_greet.sp.1
        = rust_src_shadow.toList.take rust_free_greet.sp.1 ∧
      out.toList.drop (rust_free_greet.sp.1 + "NEW".toList.length)
        = rust_src_shadow.toList.drop rust_free_greet.sp.2 :=
  render_splices_exact_span rust_tree_shadow rust_src_shadow 1 "NEW" rust_free_greet
    (by decide) (by decide) (by decide)

/-- C5: a node identity matching no node reachable from the tree's root
makes render fail with the distinct `NodeNotFound` error value; it never
returns an Ok output there. Modelled from the spec, as the render body
lives in the external tree_sitter_edit crate. -/
theorem render_unknown_identity_fails (tree : TSNode) (source : String)
    (target_node_identity : Nat) (replacement : String)
    (h : ∀ n ∈ tree.preorder, n.nid ≠ target_node_identity) :
    render tree source target_node_identity replacement = .error "NodeNotFound" ∧
    ∀ out, render tree source target_node_identity replacement ≠ .ok out := by
  have hfind : tree.preorder.find? (fun m => m.nid == target_node_identity) = none :=
    List.find?_eq_none.mpr (fun n hn => by simpa using h n hn)
  have h0 : render tree source target_node_identity replacement =
      .error "NodeNotFound" := by
    unfold render
    rw [hfind]
  refine ⟨h0, fun out hc => ?_⟩
  rw [h0] at hc
  cases hc

/-- Closed instance of C5 at an identity absent from
`js_tree_const_number`. -/
theorem render_unknown_identity_fails_witness :
    render js_tree_const_number js_src_const_number 99 "x" = .error "NodeNotFound" :=
  (render_unknown_identity_fails js_tree_const_number js_src_const_number 99 "x"
    (by decide)).1

/-- C7, counterexample: the Go grammar accepts a method with an empty
receiver parameter list (`func () foo() {}`) without error nodes; on it,
locating with both identifiers present panics (the receiver's second
child is the `)` token, which carries no `type` field, and the code
unwraps it) instead of returning a failure value. -/
theorem go_empty_receiver_panics :
    GoAnalyser.find_correct_node go_src_empty_receiver go_tree_empty_receiver
      (some "Greeter") (some "foo") = .aborted := by decide

/-- C7, amended: each locate operation returns a success node or a failure
value — it never panics — provided every candidate node it reaches
carries the fields and children the strategy unwraps (Rust: each impl
block a subject type, generic subjects an inner base type; Go: each
method a name and a receiver whose second child carries a declared type,
non-identifier receiver types a second child, each function a name;
JavaScript/TypeScript: each class a name and a body, each method
definition a name, each lexical declaration with a second child a binding
name under it). Outside this set — e.g. the empty-receiver Go method —
the strategy aborts. -/
theorem locate_total_on_wellformed_trees (source : String) (t : TSNode)
    (parent_identifier function_identifier : Option String) :
    ((∀ i ∈ find_all_of_kind t "impl_item", rust_impl_wf i = true) →
      RustAnalyzer.find_correct_node source t parent_identifier function_identifier ≠
        .aborted) ∧
    ((∀ m ∈ find_all_of_kind t "method_declaration", go_method_wf m = true) →
      (∀ f ∈ find_all_of_kind t "function_declaration", go_function_wf f = true) →
      GoAnalyser.find_correct_node source t parent_identifier function_identifier ≠
        .aborted) ∧
    ((∀ c ∈ find_all_of_kind t "class_declaration", js_class_wf c = true) →
      (∀ c ∈ find_all_of_kind t "class_declaration", ∀ body,
        c.child_by_field_name "body" = some body →
        ∀ m ∈ body.children, js_method_wf m = true) →
      (∀ l ∈ find_all_of_kind t "lexical_declaration", js_lexical_wf l = true) →
      JavascriptAnalyser.find_correct_node source t parent_identifier
        function_identifier ≠ .aborted ∧
      TypescriptAnalyser.find_correct_node source t parent_identifier
        function_identifier ≠ .aborted) := by
  cases function_identifier with
  | none =>
    exact ⟨fun _ => by simp [RustAnalyzer.find_correct_node],
           fun _ _ => by simp [GoAnalyser.find_correct_node],
           fun _ _ _ => ⟨by simp [JavascriptAnalyser.find_correct_node],
                         by simp [TypescriptAnalyser.find_correct_node]⟩⟩
  | some function =>
    refine ⟨?_, ?_, ?_⟩
    · intro hwf
      cases parent_identifier with
      | some parent =>
        obtain ⟨cands, hcands⟩ := Option.isSome_iff_exists.mp
          (candidate_subtrees_isSome_of_wf source parent _ hwf)
        cases hemp : cands.isEmpty with
        | true => simp [RustAnalyzer.find_correct_node, hcands, hemp]
        | false =>
          cases hfs : cands.findSome? (fun c =>
              find_first_of_kind_with_field_value source c "function_item" "name"
                function) with
          | none => simp [RustAnalyzer.find_correct_node, hcands, hemp, hfs]
          | some v => simp [RustAnalyzer.find_correct_node, hcands, hemp, hfs]
      | none =>
        cases hfs : [t].findSome? (fun c =>
            find_first_of_kind_with_field_value source c "function_item" "name"
              function) with
        | none => simp [RustAnalyzer.find_correct_node, hfs]
        | some v => simp [RustAnalyzer.find_correct_node, hfs]
    · intro hm hf
      cases parent_identifier with
      | some parent =>
        obtain ⟨om, hom⟩ := Option.isSome_iff_exists.mp
          (find_method_isSome_of_wf source parent function _ hm)
        cases om with
        | none => simp [GoAnalyser.find_correct_node, hom]
        | some v => simp [GoAnalyser.find_correct_node, hom]
      | none =>
        obtain ⟨om, hom⟩ := Option.isSome_iff_exists.mp
          (find_function_isSome_of_wf source function _ hf)
        cases om with
        | none => simp [GoAnalyser.find_correct_node, hom]
        | some v => simp [GoAnalyser.find_correct_node, hom]
    · intro hcls hbody hlex
      cases parent_identifier with
      | some parent =>
        obtain ⟨oc, hoc⟩ := Option.isSome_iff_exists.mp
          (find_class_isSome_of_wf source parent
            (find_all_of_kind t "class_declaration")
            (fun c hc => js_class_wf_name (hcls c hc)))
        cases oc with
        | none =>
          exact ⟨by simp [JavascriptAnalyser.find_correct_node, hoc],
                 by simp [TypescriptAnalyser.find_correct_node, hoc]⟩
        | some cls =>
          have hmem := find_class_sound source parent
            (find_all_of_kind t "class_declaration") cls hoc
          obtain ⟨body, hb⟩ := Option.isSome_iff_exists.mp
            (js_class_wf_body (hcls cls hmem))
          have hmwf : ∀ m ∈ body.children, js_method_wf m = true :=
            hbody cls hmem body hb
          obtain ⟨oj, hoj⟩ := Option.isSome_iff_exists.mp
            (find_method_in_members_isSome_of_wf source function
              (JavascriptAnalyser.members_of body)
              (fun m hm2 => hmwf m (List.mem_of_mem_filter hm2)))
          obtain ⟨ot, hot⟩ := Option.isSome_iff_exists.mp
            (find_method_in_members_isSome_of_wf source function body.children hmwf)
          constructor
          · cases oj with
            | none => simp [JavascriptAnalyser.find_correct_node, hoc, hb, hoj]
            | some v => simp [JavascriptAnalyser.find_correct_node, hoc, hb, hoj]
          · cases ot with
            | none => simp [TypescriptAnalyser.find_correct_node, hoc, hb, hot]
            | some v => simp [TypescriptAnalyser.find_correct_node, hoc, hb, hot]
      | none =>
        cases hfd : find_first_of_kind_with_field_value source t
            "function_declaration" "name" function with
        | some v =>
          exact ⟨by simp [JavascriptAnalyser.find_correct_node, hfd],
                 by simp [TypescriptAnalyser.find_correct_node, hfd]⟩
        | none =>
          obtain ⟨ol, hol⟩ := Option.isSome_iff_exists.mp
            (find_lexical_isSome_of_wf source function _ hlex)
          cases ol with
          | none =>
            exact ⟨by simp [JavascriptAnalyser.find_correct_node, hfd, hol],
                   by simp [TypescriptAnalyser.find_correct_node, hfd, hol]⟩
          | some v =>
            exact ⟨by simp [JavascriptAnalyser.find_correct_node, hfd, hol],
                   by simp [TypescriptAnalyser.find_correct_node, hfd, hol]⟩

/-- Closed instance of C7's amended theorem on `rust_tree_shadow`, whose
candidate nodes all pass the wellformedness checks. -/
theorem locate_total_on_wellformed_trees_witness :
    RustAnalyzer.find_correct_node rust_src_shadow rust_tree_shadow
      (some "Greeter") (some "greet") ≠ .aborted ∧
    GoAnalyser.find_correct_node rust_src_shadow rust_tree_shadow
      (some "Greeter") (some "greet") ≠ .aborted ∧
    JavascriptAnalyser.find_correct_node rust_src_shadow rust_tree_shadow
      (some "Greeter") (some "greet") ≠ .aborted ∧
    TypescriptAnalyser.find_correct_node rust_src_shadow rust_tree_shadow
      (some "Greeter") (some "greet") ≠ .aborted :=
  have h := locate_total_on_wellformed_trees rust_src_shadow rust_tree_shadow
    (some "Greeter") (some "greet")
  have hnested : ∀ c ∈ find_all_of_kind rust_tree_shadow "class_declaration", ∀ body,
      c.child_by_field_name "body" = some body →
      ∀ m ∈ body.children, js_method_wf m = true := by
    intro c hc
    rw [show find_all_of_kind rust_tree_shadow "class_declaration" = [] from rfl] at hc
    exact absurd hc (List.not_mem_nil c)
  have hjts := h.2.2 (by decide) hnested (by decide)
  ⟨h.1 (by decide), h.2.1 (by decide) (by decide), hjts.1, hjts.2⟩

/-- C9: for the Rust strategy, an impl block enters the candidate set
exactly when its subject type name — unwrapped through a generic subject
to the base type name — equals the parent identifier; concretely, both an
impl declared with generic parameters on the subject (`impl<T> Foo<T>`)
and one declared without (`impl Foo`) resolve for parent `Foo`. -/
theorem rust_impl_accepted_iff_base_name_matches :
    (∀ (source parent : String) (impls cands : List TSNode),
      RustAnalyzer.candidate_subtrees source parent impls = some cands →
      ∀ i, i ∈ cands ↔
        (i ∈ impls ∧ RustAnalyzer.impl_type_name source i = some parent)) ∧
    RustAnalyzer.find_correct_node rust_src_generic rust_tree_generic
      (some "Foo") (some "f") = .ok rust_generic_f ∧
    RustAnalyzer.find_correct_node rust_src_plain rust_tree_plain
      (some "Foo") (some "f") = .ok rust_plain_f := by
  refine ⟨?_, by decide, by decide⟩
  intro source parent impls
  induction impls with
  | nil =>
    intro cands h i
    obtain rfl : cands = [] := by
      simpa [RustAnalyzer.candidate_subtrees] using h.symm
    simp
  | cons a rest ih =>
    intro cands h i
    rw [RustAnalyzer.candidate_subtrees] at h
    cases hnm : RustAnalyzer.impl_type_name source a with
    | none => rw [hnm] at h; simp at h
    | some nm =>
      simp only [hnm] at h
      cases hrest : RustAnalyzer.candidate_subtrees source parent rest with
      | none => rw [hrest] at h; simp at h
      | some cs =>
        simp only [hrest] at h
        have hmem := ih cs hrest
        by_cases heq : (nm == parent) = true
        · rw [if_pos heq] at h
          obtain rfl : cands = a :: cs := by simpa using h.symm
          constructor
          · intro hi
            rcases List.mem_cons.mp hi with rfl | hi2
            · exact ⟨List.mem_cons_self _ _,
                by rw [hnm, beq_iff_eq.mp heq]⟩
            · obtain ⟨hm2, hname⟩ := (hmem i).mp hi2
              exact ⟨List.mem_cons_of_mem _ hm2, hname⟩
          · rintro ⟨hi, hname⟩
            rcases List.mem_cons.mp hi with rfl | hi2
            · exact List.mem_cons_self i cs
            · exact List.mem_cons_of_mem a ((hmem i).mpr ⟨hi2, hname⟩)
        · rw [if_neg heq] at h
          obtain rfl : cands = cs := by simpa using h.symm
          constructor
          · intro hi
            obtain ⟨hm2, hname⟩ := (hmem i).mp hi
            exact ⟨List.mem_cons_of_mem a hm2, hname⟩
          · rintro ⟨hi, hname⟩
            rcases List.mem_cons.mp hi with rfl | hi2
            · exfalso
              rw [hnm] at hname
              exact heq (beq_iff_eq.mpr (by simpa using hname))
            · exact (hmem i).mpr ⟨hi2, hname⟩

/-- Closed instance of C9's candidate characterization: on `rust_tree_plain`
the candidate loop for parent `Foo` returns exactly its single impl. -/
theorem rust_impl_accepted_iff_base_name_matches_witness :
    rust_impl_plain ∈ [rust_impl_plain] ↔
      (rust_impl_plain ∈ find_all_of_kind rust_tree_plain "impl_item" ∧
        RustAnalyzer.impl_type_name rust_src_plain rust_impl_plain = some "Foo") :=
  rust_impl_accepted_iff_base_name_matches.1 rust_src_plain "Foo"
    (find_all_of_kind rust_tree_plain "impl_item") [rust_impl_plain]
    (by decide) rust_impl_plain

/-- C10: for the Go strategy, a method declaration matches exactly when its
name equals the function identifier and its receiver's declared bare type
name — the pointer indirection unwrapped through `child(1)` — equals the
parent identifier: the match outcome is the same comparison for a value
receiver and for a pointer receiver. Concretely, on a file with a
value-receiver and a pointer-receiver method of type `Greeter`, both are
located under parent `Greeter`. -/
theorem go_receiver_kind_equivalence :
    (∀ (source parent function : String) (m nm recv pd rt : TSNode),
      m.child_by_field_name "name" = some nm →
      m.child_by_field_name "receiver" = some recv →
      recv.child 1 = some pd →
      pd.child_by_field_name "type" = some rt →
      (rt.kind = "type_identifier" →
        GoAnalyser.method_matches source parent function m =
          some (node_value source rt == parent
            && node_value source nm == function)) ∧
      (∀ inner, rt.kind ≠ "type_identifier" → rt.child 1 = some inner →
        GoAnalyser.method_matches source parent function m =
          some (node_value source inner == parent
            && node_value source nm == function))) ∧
    GoAnalyser.find_correct_node go_src_two_receivers go_tree_two_receivers
      (some "Greeter") (some "greet") = .ok go_method_value ∧
    GoAnalyser.find_correct_node go_src_two_receivers go_tree_two_receivers
      (some "Greeter") (some "greetPointer") = .ok go_method_pointer := by
  refine ⟨?_, by decide, by decide⟩
  intro source parent function m nm recv pd rt hnm hrecv hpd hrt
  unfold GoAnalyser.method_matches
  simp only [hnm, hrecv, hpd, hrt]
  constructor
  · intro hk
    rw [if_pos (beq_iff_eq.mpr hk)]
  · intro inner hk hin
    rw [if_neg (by simpa using hk)]
    simp only [hin]

/-- Closed instance of C10's matching characterization at the
pointer-receiver method of `go_tree_two_receivers`. -/
theorem go_receiver_kind_equivalence_witness :
    GoAnalyser.method_matches go_src_two_receivers "Greeter" "greetPointer"
      go_method_pointer =
      some ((node_value go_src_two_receivers go_pointer_inner == "Greeter")
        && (node_value go_src_two_receivers go_pointer_name == "greetPointer")) :=
  (go_receiver_kind_equivalence.1 go_src_two_receivers "Greeter" "greetPointer"
    go_method_pointer go_pointer_name go_pointer_recv go_pointer_pd go_pointer_rt
    (by decide) (by decide) (by decide) (by decide)).2
    go_pointer_inner (by decide) (by decide)
